import Mathlib

/-! # ai-commit: a shallow embedding of `main.go`

Go strings are modelled by Lean `String`s (sequences of Unicode code points);
`len` is the UTF-8 byte length, and texts that are not valid UTF-8 are outside
the model.  External effects (file system, the `git`
subprocesses, the remote model, standard input, the text editor) are the
fields of a `World` record, and every function that performs visible effects
returns the list of `Event`s it produced next to its Go result.  A Go `error`
is its message text; `Except String α` stands for `(α, error)`, and a function
that can panic ends in a `Completion`.

The progress spinner (`printWithSpinner`) is cosmetic and not modelled.
-/

namespace AiCommit

deriving instance DecidableEq for Except

/-! ## Strings -/

/-- Byte length of a string, Go's `len(s)`. -/
def len (s : String) : Nat := s.utf8ByteSize

/-- White space as `unicode.IsSpace` defines it. -/
def isSpace (r : Char) : Bool :=
  r = '\t' || r = '\n' || r.toNat = 0x0B || r.toNat = 0x0C || r = '\r' || r = ' ' ||
  r.toNat = 0x85 || r.toNat = 0xA0 || r.toNat = 0x1680 ||
  (0x2000 ≤ r.toNat && r.toNat ≤ 0x200A) ||
  r.toNat = 0x2028 || r.toNat = 0x2029 || r.toNat = 0x202F || r.toNat = 0x205F ||
  r.toNat = 0x3000

/-- Runes of a string without leading and trailing white space. -/
def trimRunes (l : List Char) : List Char :=
  ((l.dropWhile isSpace).reverse.dropWhile isSpace).reverse

/-- Go's `strings.TrimSpace`. -/
def trimSpace (s : String) : String := String.mk (trimRunes s.data)

/-- Go's `unicode.ToLower`: the ASCII range is fixed, the rest is looked up in
the case tables of the standard library, a parameter here. -/
def unicodeToLower (caseTable : Char → Char) (r : Char) : Char :=
  if r.toNat ≤ 0x7F then
    if 'A'.toNat ≤ r.toNat ∧ r.toNat ≤ 'Z'.toNat then Char.ofNat (r.toNat + 32) else r
  else caseTable r

/-- Go's `strings.ToLower`. -/
def toLower (caseTable : Char → Char) (s : String) : String :=
  String.mk (s.data.map (unicodeToLower caseTable))

/-- Go's `strings.Join`. -/
def join (elems : List String) (sep : String) : String := sep.intercalate elems

/-- Pieces of a rune list between newline characters. -/
def splitRunes : List Char → List (List Char)
  | [] => [[]]
  | c :: cs =>
    if c = '\n' then [] :: splitRunes cs
    else
      match splitRunes cs with
      | [] => [[c]]
      | p :: ps => (c :: p) :: ps

/-- Go's `strings.Split(s, "\n")`. -/
def splitNewline (s : String) : List String := (splitRunes s.data).map String.mk

/-- Whether `sub` occurs at the start of `l`. -/
def hasPrefixRunes : List Char → List Char → Bool
  | [], _ => true
  | _ :: _, [] => false
  | a :: as, b :: bs => a = b && hasPrefixRunes as bs

/-- Whether `sub` occurs somewhere in `l`. -/
def containsRunes (sub : List Char) : List Char → Bool
  | [] => sub.isEmpty
  | b :: bs => hasPrefixRunes sub (b :: bs) || containsRunes sub bs

/-- Go's `strings.Contains`. -/
def contains (s sub : String) : Bool := containsRunes sub.data s.data

/-! ## Configuration -/

structure Template where
  Prefix : String
  Description : String
deriving DecidableEq, Repr

structure Config where
  ApiKey : String
  MaxDiffSize : Int
  HistoryDepth : Int
  Templates : List Template
  ColorEnabled : Bool
deriving DecidableEq, Repr

def colorReset : String := "\x1b[0m"
def colorRed : String := "\x1b[31m"
def colorGreen : String := "\x1b[32m"
def colorYellow : String := "\x1b[33m"
def colorBlue : String := "\x1b[34m"
def colorPurple : String := "\x1b[35m"
def colorCyan : String := "\x1b[36m"

def colorize (text : String) (color : String) (config : Config) : String :=
  if !config.ColorEnabled then text else color ++ text ++ colorReset

/-- Whether the rune is one of the letters `a` to `z`. -/
def isLowerLetter (r : Char) : Bool := 'a'.toNat ≤ r.toNat && r.toNat ≤ 'z'.toNat

/-- The compiled pattern `^[a-z]+$` applied with `MatchString`: the whole text
is one or more letters `a` to `z`. -/
def prefixRegexMatch (s : String) : Bool := !s.data.isEmpty && s.data.all isLowerLetter

/-- The loop over the templates in `Validate`. -/
def validateTemplates : List Template → Except String Unit
  | [] => .ok ()
  | t :: ts =>
    if t.Prefix = "" ∨ len t.Prefix > 10 ∨ ¬ prefixRegexMatch t.Prefix = true then
      .error ("invalid template prefix: " ++ t.Prefix)
    else if t.Description = "" ∨ len t.Description > 50 then
      .error ("invalid template description for prefix " ++ t.Prefix)
    else validateTemplates ts

def errApiKeyRequired : String :=
  "API key is required. Set it in config file or API_KEY environment variable"

/-- The method `ConfigManager.Validate`, on the manager's config. -/
def Validate (config : Config) : Except String Unit :=
  if config.ApiKey = "" then .error errApiKeyRequired
  else if config.MaxDiffSize ≤ 0 then .error "max_diff_size must be positive"
  else if config.HistoryDepth ≤ 0 then .error "history_depth must be positive"
  else validateTemplates config.Templates

/-! ## The outside world -/

/-- Outcome of `os.ReadFile` on the config path. -/
inductive FileRead where
  | notExist (err : String)
  | failed (err : String)
  | data (bytes : String)
deriving DecidableEq, Repr

/-- The content of a candidate: its parts, each as the verb `%v` prints it. -/
structure Content where
  Parts : List String
deriving DecidableEq, Repr

/-- One candidate of a model response.  Its field `Content` is a pointer, `none`
when it is nil. -/
structure Candidate where
  Content : Option Content
deriving DecidableEq, Repr

/-- Outcome of one `model.GenerateContent` call. -/
inductive GenOutcome where
  | failure (err : String)
  | response (Candidates : List Candidate)
deriving DecidableEq, Repr

/-- Everything the program reads from or asks of its environment. -/
structure World where
  /-- Result of `getConfigPath` (home directory lookup, directory creation). -/
  getConfigPath : Except String String
  /-- Value of the environment variable `API_KEY`. -/
  envApiKey : String
  readConfigFile : FileRead
  /-- The call `yaml.Unmarshal(data, config)`: the updated config or an error. -/
  yamlUnmarshal : String → Config → Except String Config
  yamlMarshal : Config → Except String String
  /-- The call `os.WriteFile(path, data, 0644)`: its error, if any. -/
  writeConfigFile : String → String → Option String
  /-- Error of `git rev-parse --git-dir`, if any. -/
  gitRevParse : Option String
  /-- Output of `git diff --cached --name-only`. -/
  gitDiffNames : Except String String
  /-- Output of `git diff --cached`. -/
  gitDiffCached : Except String String
  /-- Output of `git log -<count> --pretty=format:%s`. -/
  gitLog : Int → Except String String
  /-- The call `git commit -m message`: on failure its combined output. -/
  gitCommit : String → Except String Unit
  /-- Error of `genai.NewClient` for an API key, if any. -/
  newClient : String → Option String
  /-- Outcome of the remote call number `i` (from 0) for a prompt. -/
  generateContent : Nat → String → GenOutcome
  /-- What the successive `Read` calls on standard input hand to the buffered
  reader that makes them: one element for each read that delivers text, a line
  at a time on a terminal, several lines at once on a pipe; after the last one
  the read gives `EOF`. -/
  stdinReads : List String
  /-- Lower-case mapping of the non-ASCII runes. -/
  caseTable : Char → Char
  /-- Name of the file `os.CreateTemp` makes. -/
  createTemp : Except String String
  /-- Error of writing the message to the temporary file, if any. -/
  writeTemp : String → Option String
  envVisual : String
  envEditor : String
  /-- Output of `git config --get core.editor`. -/
  gitCoreEditor : Except String String
  /-- Whether `exec.LookPath` finds the program. -/
  lookPath : String → Bool
  /-- Error of running the editor (editor, file name, file content), if any. -/
  runEditor : String → String → String → Option String
  /-- Content of the temporary file after the editor ran on the given content. -/
  readTemp : String → String → Except String String

/-- How a Go function ends: it returns, or it panics. -/
inductive Completion (α : Type) where
  | returned (value : α)
  | panicked (msg : String)
deriving DecidableEq, Repr

/-- The text of the run-time panic on a nil pointer. -/
def nilDereference : String :=
  "runtime error: invalid memory address or nil pointer dereference"

/-- A visible effect of the program. -/
inductive Event where
  | stdout (text : String)
  | newClient (apiKey : String)
  | sleep (nanoseconds : Int)
  | generateContent (prompt : String)
  | readLine (input : String)
  | editor (command : String) (file : String)
  | commit (message : String)
  | closeClient
deriving DecidableEq, Repr

def Event.isGenerator : Event → Bool
  | .newClient _ => true
  | .generateContent _ => true
  | _ => false

def Event.isGenerateContent : Event → Bool
  | .generateContent _ => true
  | _ => false

def Event.isCommit : Event → Bool
  | .commit _ => true
  | _ => false

def Event.isReadLine : Event → Bool
  | .readLine _ => true
  | _ => false

/-- The durations of the `time.Sleep` calls among the events, in order. -/
def sleeps : List Event → List Int
  | [] => []
  | .sleep d :: es => d :: sleeps es
  | _ :: es => sleeps es

/-- The constant `time.Second`, in nanoseconds. -/
def Second : Int := 1000000000

/-! ## Config store -/

structure ConfigManager where
  config : Config
  path : String
deriving DecidableEq, Repr

def defaultTemplates : List Template :=
  [⟨"feat", "Add new feature"⟩, ⟨"fix", "Fix a bug"⟩, ⟨"chore", "Maintenance tasks"⟩,
   ⟨"docs", "Documentation changes"⟩, ⟨"style", "Code style changes"⟩,
   ⟨"refactor", "Code refactoring"⟩, ⟨"perf", "Performance improvements"⟩,
   ⟨"test", "Add or modify tests"⟩, ⟨"build", "Build system changes"⟩,
   ⟨"ci", "CI configuration changes"⟩]

def NewConfigManager (w : World) : Except String ConfigManager :=
  match w.getConfigPath with
  | .error err => .error err
  | .ok path =>
    let config : Config :=
      { ApiKey := "", MaxDiffSize := 10000, HistoryDepth := 5, ColorEnabled := true,
        Templates := defaultTemplates }
    let config := if w.envApiKey ≠ "" then { config with ApiKey := w.envApiKey } else config
    .ok { config := config, path := path }

/-- The method `SaveDefault`: its error and what it printed. -/
def SaveDefault (w : World) (cm : ConfigManager) : Option String × List Event :=
  match w.yamlMarshal cm.config with
  | .error err => (some ("failed to marshal config: " ++ err), [])
  | .ok data =>
    match w.writeConfigFile cm.path data with
    | some err => (some ("failed to write config file: " ++ err), [])
    | none => (none, [.stdout ("Created default config at " ++ cm.path ++ "\n")])

/-- The method `Load`: its error, the manager afterwards and what it printed. -/
def Load (w : World) (cm : ConfigManager) : Option String × ConfigManager × List Event :=
  match w.readConfigFile with
  | .notExist _ => let r := SaveDefault w cm; (r.1, cm, r.2)
  | .failed err => (some ("failed to read config file: " ++ err), cm, [])
  | .data bytes =>
    match w.yamlUnmarshal bytes cm.config with
    | .error err => (some ("failed to parse config file: " ++ err), cm, [])
    | .ok config =>
      match Validate config with
      | .error err => (some err, { cm with config := config }, [])
      | .ok _ => (none, { cm with config := config }, [])

/-! ## VCS adapter -/

def getGitDiff (w : World) (maxDiffSize : Int) : Except String String :=
  match w.gitRevParse with
  | some _ => .error "not a git repository"
  | none =>
    match w.gitDiffNames with
    | .error err => .error ("failed to check staged changes: " ++ err)
    | .ok statusOutput =>
      if len (trimSpace statusOutput) = 0 then .error "no staged changes"
      else
        match w.gitDiffCached with
        | .error err => .error ("failed to get diff: " ++ err)
        | .ok output =>
          if (len output : Int) > maxDiffSize then
            .error ("diff size exceeds maximum allowed size of " ++ toString maxDiffSize ++
              " bytes")
          else .ok output

def getRecentCommits (w : World) (count : Int) : Except String (List String) :=
  match w.gitLog count with
  | .error err =>
    if contains err "does not have any commits yet" then .ok []
    else .error ("failed to get recent commits: " ++ err)
  | .ok output =>
    if len output = 0 then .ok [] else .ok (splitNewline output)

def commitChanges (w : World) (message : String) : Option String × List Event :=
  match w.gitCommit message with
  | .error output => (some ("failed to commit: " ++ output), [.commit message])
  | .ok _ => (none, [.commit message])

/-! ## Message generator -/

/-- The prompt text before the commit history. -/
def promptIntro : String :=
  "You are a highly skilled Git commit message generator. Analyze the given changes and generate a clear, concise, and conventional commit message.\n" ++
  "\n" ++
  "CONTEXT:\n" ++
  "Previous commit messages for this repository:\n"

/-- The prompt text between the commit history and the diff. -/
def promptChanges : String :=
  "\n" ++
  "\n" ++
  "CHANGES TO COMMIT:\n"

/-- The prompt text between the diff and the commit types. -/
def promptTypes : String :=
  "\n" ++
  "\n" ++
  "COMMIT TYPES:\n"

/-- The prompt text after the commit types. -/
def promptRules : String :=
  "\n" ++
  "\n" ++
  "IMPORTANT LANGUAGE INSTRUCTION:\n" ++
  "1. First, analyze the language used in previous commits\n" ++
  "2. Generate the commit message ENTIRELY in that exact same language\n" ++
  "3. Match the writing style and terminology of previous commits precisely\n" ++
  "\n" ++
  "REQUIREMENTS:\n" ++
  "1. Format: Must follow conventional commit format:\n" ++
  "   <type>: <description>\n" ++
  "   \n" ++
  "   <body>\n" ++
  "2. Length: \n" ++
  "   - Header: Maximum 72 characters\n" ++
  "   - Body: Wrap at 72 characters\n" ++
  "3. Type:\n" ++
  "   - MUST use one of the commit types provided in the list above\n" ++
  "   - Do not include any other type\n" ++
  "4. Grammar:\n" ++
  "   - Use present tense \n" ++
  "   - Use imperative mood\n" ++
  "   - No period at the end\n" ++
  "5. Content:\n" ++
  "   - Be specific about what changed\n" ++
  "   - Explain why in the body\n" ++
  "   - Focus on the change's impact\n" ++
  "   - Use consistent terminology\n" ++
  "6. Body (Required):\n" ++
  "   - Separate from header with blank line\n" ++
  "   - Explain motivation for change\n" ++
  "   - Contrast with previous behavior\n" ++
  "   - Use bullet points for multiple items\n" ++
  "\n" ++
  "EXAMPLES (these are in English but your output should match the language of previous commits):\n" ++
  "feat: add user authentication to API endpoints\n" ++
  "\n" ++
  "Implement JWT-based authentication to secure API routes.\n" ++
  "- Add token validation middleware\n" ++
  "- Restrict access to sensitive endpoints\n" ++
  "- Improve overall system security\n" ++
  "\n" ++
  "fix: resolve memory leak in background worker\n" ++
  "\n" ++
  "Worker was not properly clearing temporary files after\n" ++
  "processing. Now ensures cleanup happens even when tasks fail.\n" ++
  "\n" ++
  "INSTRUCTIONS:\n" ++
  "1. Analyze previous commits to determine the language being used\n" ++
  "2. Understand the core changes being made\n" ++
  "3. Choose appropriate commit type\n" ++
  "4. Write header and body IN THE SAME LANGUAGE as previous commits\n" ++
  "5. Verify all requirements are met\n" ++
  "6. Return ONLY the complete commit message, nothing else\n" ++
  "\n" ++
  "Generate the commit message now:"

/-- The `fmt.Sprintf` call that builds the prompt in `Generate`. -/
def buildPrompt (config : Config) (diff : String) (history : List String) : String :=
  let templateInfo := config.Templates.map (fun t => t.Prefix ++ ": " ++ t.Description)
  promptIntro ++ join history "\n" ++ promptChanges ++ diff ++ promptTypes ++
    join templateInfo "\n" ++ promptRules

/-- Error of `NewCommitMessageGenerator`, if any, and its effects. -/
def NewCommitMessageGenerator (w : World) (config : Config) : Option String × List Event :=
  match w.newClient config.ApiKey with
  | some err => (some ("failed to create AI client: " ++ err), [.newClient config.ApiKey])
  | none => (none, [.newClient config.ApiKey])

/-- What the test `len(resp.Candidates) > 0 &&
len(resp.Candidates[0].Content.Parts) > 0` comes to. -/
inductive FirstPart where
  /-- The test is false: no candidate, or no part in the first one. -/
  | absent
  /-- The first candidate has a nil `Content`, and its dereference panics. -/
  | nilContent
  /-- The test is true: `resp.Candidates[0].Content.Parts[0]` printed with `%v`. -/
  | part (message : String)
deriving DecidableEq, Repr

def firstPart : List Candidate → FirstPart
  | [] => .absent
  | c :: _ =>
    match c.Content with
    | none => .nilContent
    | some content =>
      match content.Parts with
      | [] => .absent
      | p :: _ => .part p

/-- How `%v` prints the error value `lastErr`. -/
def showErr : Option String → String
  | none => "<nil>"
  | some err => err

/-- The argument of `time.Sleep` before a retry: `time.Second` times `1 << attempt`
(below 2^63 for the attempts of the loop). -/
def backoff (attempt : Nat) : Int := Second * (2 ^ attempt : Nat)

/-- The retry loop of `Generate` from iteration `attempt` on, with `remaining`
iterations left before `attempt` exceeds `maxRetries`. -/
def generateLoop (w : World) (prompt : String) (maxRetries : Nat) :
    Nat → Nat → Option String → Completion (Except String String) × List Event
  | 0, _, lastErr =>
    (.returned
      (.error ("failed after " ++ toString maxRetries ++ " retries: " ++ showErr lastErr)), [])
  | remaining + 1, attempt, _ =>
    let wait : List Event := if attempt > 0 then [.sleep (backoff attempt)] else []
    match w.generateContent attempt prompt with
    | .failure err =>
      let r := generateLoop w prompt maxRetries remaining (attempt + 1) (some err)
      (r.1, wait ++ .generateContent prompt :: r.2)
    | .response candidates =>
      match firstPart candidates with
      | .nilContent => (.panicked nilDereference, wait ++ [.generateContent prompt])
      | .part message =>
        if message ≠ "" then
          (.returned (.ok (trimSpace message)), wait ++ [.generateContent prompt])
        else
          let r := generateLoop w prompt maxRetries remaining (attempt + 1)
            (some "empty response received")
          (r.1, wait ++ .generateContent prompt :: r.2)
      | .absent =>
        let r := generateLoop w prompt maxRetries remaining (attempt + 1)
          (some "empty response received")
        (r.1, wait ++ .generateContent prompt :: r.2)

/-- The method `CommitMessageGenerator.Generate`. -/
def Generate (w : World) (config : Config) (diff : String) (history : List String) :
    Completion (Except String String) × List Event :=
  let maxRetries := 3
  generateLoop w (buildPrompt config diff history) maxRetries (maxRetries + 1) 0 none

/-! ## Interactive controller -/

/-- The editor command `editMessage` settles on, empty when there is none. -/
def resolveEditor (w : World) : String :=
  let editor := w.envVisual
  let editor := if editor = "" then w.envEditor else editor
  let editor :=
    if editor = "" then
      match w.gitCoreEditor with
      | .ok output => trimSpace output
      | .error _ => editor
    else editor
  if editor = "" then (["vim", "nano", "vi"].find? w.lookPath).getD "" else editor

def editMessage (w : World) (originalMessage : String) : Except String String × List Event :=
  match w.createTemp with
  | .error err => (.error ("failed to create temporary file: " ++ err), [])
  | .ok name =>
    match w.writeTemp originalMessage with
    | some err => (.error ("failed to write to temporary file: " ++ err), [])
    | none =>
      let editor := resolveEditor w
      if editor = "" then
        (.error "no text editor found. Please set EDITOR environment variable", [])
      else
        match w.runEditor editor name originalMessage with
        | some err => (.error ("failed to run editor: " ++ err), [.editor editor name])
        | none =>
          match w.readTemp editor originalMessage with
          | .error err =>
            (.error ("failed to read edited message: " ++ err), [.editor editor name])
          | .ok content =>
            let editedMessage := trimSpace content
            if editedMessage = "" then
              (.error "commit message cannot be empty", [.editor editor name])
            else (.ok editedMessage, [.editor editor name])

/-- What one pass of the loop in `getCommitAction` prints before it reads. -/
def presentation (config : Config) (message : String) : List Event :=
  [.stdout ("\n" ++ colorize "=== Generated Commit Message ===" colorBlue config ++ "\n"),
   .stdout (colorize message colorGreen config ++ "\n\n"),
   .stdout (colorize "What would you like to do?" colorCyan config ++ "\n"),
   .stdout (colorize "[Y]es: " colorGreen config ++ "Commit with this message" ++ "\n"),
   .stdout (colorize "[E]dit: " colorYellow config ++ "Edit the message" ++ "\n"),
   .stdout (colorize "[N]o: " colorRed config ++ "Cancel commit" ++ "\n"),
   .stdout (colorize "Choice [Y/e/n]: " colorCyan config)]

/-- What the `default` case of the switch prints. -/
def invalidNotice (config : Config) : Event :=
  .stdout (colorize "Invalid choice. Please try again." colorRed config ++ "\n")

/-- The text the switch in `getCommitAction` looks at. -/
def normalize (w : World) (input : String) : String := toLower w.caseTable (trimSpace input)

/-- The runes of a chunk up to and including its first newline, when it has one. -/
def upToNewline : List Char → Option (List Char)
  | [] => none
  | c :: cs => if c = '\n' then some [c] else (upToNewline cs).map (fun l => c :: l)

/-- The call `reader.ReadString('\n')` on a `bufio.Reader` over standard input
that has taken the runes `pending`, with no newline among them: the reader reads
on until a chunk holds a newline, and returns the text up to and including it, or
the error `EOF` when standard input ends first.  The second component is what
standard input still holds for the next reader: the rest of the last chunk stays
in the buffer of this reader and is gone with it. -/
def ReadString : List Char → List String → Except String String × List String
  | _, [] => (.error "EOF", [])
  | pending, chunk :: rest =>
    match upToNewline chunk.data with
    | some head => (.ok (String.mk (pending ++ head)), rest)
    | none => ReadString (pending ++ chunk.data) rest

/-- The loop of `getCommitAction` from the `ReadString` call of a pass on, the
reader of this pass having taken `pending`: the read as in `ReadString`, the
switch on the line, and for an invalid choice the next pass, which prints the
prompt again and reads with a new `bufio.NewReader(os.Stdin)`. -/
def awaitChoice (w : World) (config : Config) (message : String) :
    List Char → List String → Except String String × List Event
  | _, [] => (.error "EOF", [])
  | pending, chunk :: rest =>
    match upToNewline chunk.data with
    | none => awaitChoice w config message (pending ++ chunk.data) rest
    | some head =>
      let line := String.mk (pending ++ head)
      let input := normalize w line
      if input = "" ∨ input = "y" ∨ input = "yes" then (.ok message, [.readLine line])
      else if input = "e" ∨ input = "edit" then
        let r := editMessage w message
        (r.1, .readLine line :: r.2)
      else if input = "n" ∨ input = "no" then (.ok "", [.readLine line])
      else
        let r := awaitChoice w config message [] rest
        (r.1, .readLine line :: invalidNotice config :: presentation config message ++ r.2)

/-- The method `CLI.getCommitAction`, on what standard input holds. -/
def getCommitAction (w : World) (config : Config) (message : String) (stdin : List String) :
    Except String String × List Event :=
  ((awaitChoice w config message [] stdin).1,
    presentation config message ++ (awaitChoice w config message [] stdin).2)

/-! ## The default command -/

/-- The commit history `run` goes on with: empty when `getRecentCommits` fails. -/
def historyOrEmpty (w : World) (count : Int) : List String :=
  match getRecentCommits w count with
  | .ok history => history
  | .error _ => []

/-- The function `run`: the error it returns, if any, or its panic, and its
effects in order.  The deferred `generator.Close()` also runs on a panic. -/
def run (w : World) : Completion (Option String) × List Event :=
  match NewConfigManager w with
  | .error err => (.returned (some ("failed to initialize config manager: " ++ err)), [])
  | .ok manager =>
    match Load w manager with
    | (some err, _, ev) => (.returned (some ("failed to load config: " ++ err)), ev)
    | (none, configManager, ev) =>
      let config := configManager.config
      match getGitDiff w config.MaxDiffSize with
      | .error err => (.returned (some err), ev)
      | .ok diff =>
        let history := historyOrEmpty w config.HistoryDepth
        match NewCommitMessageGenerator w config with
        | (some err, evClient) =>
          (.returned (some ("failed to initialize message generator: " ++ err)), ev ++ evClient)
        | (none, evClient) =>
          match Generate w config diff history with
          | (.panicked msg, evGen) => (.panicked msg, ev ++ evClient ++ evGen ++ [.closeClient])
          | (.returned (.error err), evGen) =>
            (.returned (some ("failed to generate commit message: " ++ err)),
              ev ++ evClient ++ evGen ++ [.closeClient])
          | (.returned (.ok message), evGen) =>
            match getCommitAction w config message w.stdinReads with
            | (.error err, evCli) =>
              (.returned (some ("failed to process commit action: " ++ err)),
                ev ++ evClient ++ evGen ++ evCli ++ [.closeClient])
            | (.ok finalMessage, evCli) =>
              if finalMessage = "" then
                (.returned none, ev ++ evClient ++ evGen ++ evCli ++
                  [.stdout (colorize "Commit cancelled" colorYellow config ++ "\n"), .closeClient])
              else
                match commitChanges w finalMessage with
                | (some err, evCommit) =>
                  (.returned (some err),
                    ev ++ evClient ++ evGen ++ evCli ++ evCommit ++ [.closeClient])
                | (none, evCommit) =>
                  (.returned none, ev ++ evClient ++ evGen ++ evCli ++ evCommit ++
                    [.stdout (colorize "Successfully committed changes!" colorGreen config ++
                      "\n"), .closeClient])

/-- The config `&Config{ColorEnabled: true}` of `printError`. -/
def colorOn : Config :=
  { ApiKey := "", MaxDiffSize := 0, HistoryDepth := 0, Templates := [], ColorEnabled := true }

/-- The text `printError` builds in `errMsg`. -/
def errorText (err : String) : String :=
  if err = "not a git repository" then
    colorize "Error: Not a git repository" colorRed colorOn ++ "\n" ++
      "Tip: Initialize a git repository with 'git init'"
  else if err = "no staged changes" then
    colorize "Error: No staged changes found" colorRed colorOn ++ "\n" ++
      "Tip: Stage your changes with 'git add <files>' first"
  else if err = "API key is required. Set it in config file or API_KEY environment variable" then
    colorize "Error: API key is missing" colorRed colorOn ++ "\n" ++
      "Tip: Run 'ai-commit init' to set up configuration or set API_KEY environment variable"
  else colorize ("Error: " ++ err) colorRed colorOn

def printError (err : String) : List Event := [.stdout (errorText err ++ "\n")]

/-- The function `main` when the first argument is none of `-h`, `--help`, `-v`,
`--version` and `init`: what `printError` prints, nothing when `run` returns no
error or panics. -/
def mainReport (w : World) : List Event :=
  match (run w).1 with
  | .returned (some err) => printError err
  | .returned none => []
  | .panicked _ => []

/-! ## Predicates of the specification -/

/-- What a template must satisfy for `Validate` to accept it. -/
def TemplateOk (t : Template) : Prop :=
  t.Prefix ≠ "" ∧
  (∀ c ∈ t.Prefix.data, 'a'.toNat ≤ c.toNat ∧ c.toNat ≤ 'z'.toNat) ∧
  len t.Prefix ≤ 10 ∧ t.Description ≠ "" ∧ len t.Description ≤ 50


/-- The text of an outcome of the remote call when it is a non-empty text: the
first part of the first candidate, not the empty string. -/
def GenOutcome.text : GenOutcome → Option String
  | .failure _ => none
  | .response candidates =>
    match firstPart candidates with
    | .part message => if message ≠ "" then some message else none
    | _ => none

/-- Whether an outcome of the remote call is a transport error or an empty
response: no candidate, a first candidate whose content has no part, or a first
part that is the empty string. -/
def GenOutcome.failed : GenOutcome → Bool
  | .failure _ => true
  | .response candidates =>
    match firstPart candidates with
    | .absent => true
    | .part message => message = ""
    | .nilContent => false

/-- Whether an outcome of the remote call is a response whose first candidate
has no content at all. -/
def GenOutcome.contentless : GenOutcome → Bool
  | .failure _ => false
  | .response candidates =>
    match firstPart candidates with
    | .nilContent => true
    | _ => false

/-- Number of remote generation calls among the events. -/
def calls (events : List Event) : Nat := (events.filter Event.isGenerateContent).length

/-- The inputs `getCommitAction` recognises after trimming and lower-casing. -/
def choices : List String := ["", "y", "yes", "e", "edit", "n", "no"]

/-! ## Sample worlds -/

/-- A config file that sets an API key and keeps the defaults. -/
def sampleConfig : Config :=
  { ApiKey := "secret", MaxDiffSize := 10000, HistoryDepth := 2, Templates := defaultTemplates,
    ColorEnabled := false }

/-- A staged diff of 50 bytes. -/
def sampleDiff : String := "diff --git a/x b/x\n--- a/x\n+++ b/x\n@@ -1 +1 @@\n+b\n"

def sampleMessage : String := "feat: add logout\n\nAdds a logout endpoint."

/-- A repository with one staged file and two commits, a model that answers
`sampleMessage` at once, and a user who types `y`. -/
def sampleWorld : World where
  getConfigPath := .ok "/home/u/.ai-commit/config.yaml"
  envApiKey := ""
  readConfigFile := .data "api_key: secret\nhistory_depth: 2\ncolor_enabled: false\n"
  yamlUnmarshal := fun _ _ => .ok sampleConfig
  yamlMarshal := fun _ => .ok ""
  writeConfigFile := fun _ _ => none
  gitRevParse := none
  gitDiffNames := .ok "x\n"
  gitDiffCached := .ok sampleDiff
  gitLog := fun _ => .ok "fix: typo\nfeat: add login"
  gitCommit := fun _ => .ok ()
  newClient := fun _ => none
  generateContent := fun _ _ => .response [⟨some ⟨[sampleMessage]⟩⟩]
  stdinReads := ["y\n"]
  caseTable := fun r => r
  createTemp := .ok "/tmp/commit-msg-1.txt"
  writeTemp := fun _ => none
  envVisual := ""
  envEditor := "vi"
  gitCoreEditor := .error "exit status 1"
  lookPath := fun _ => false
  runEditor := fun _ _ _ => none
  readTemp := fun _ original => .ok original

/-- The manager `NewConfigManager` makes in the sample world, where `API_KEY` is
not set. -/
def sampleManager : ConfigManager :=
  { config :=
      { ApiKey := "", MaxDiffSize := 10000, HistoryDepth := 5, ColorEnabled := true,
        Templates := defaultTemplates }
    path := "/home/u/.ai-commit/config.yaml" }

/-- The sample repository with nothing staged: the name list is one newline. -/
def nothingStaged : World := { sampleWorld with gitDiffNames := .ok "\n" }

/-- What the retry loop does before the remote call of an iteration. -/
def waitBefore (attempt : Nat) : List Event :=
  if attempt > 0 then [.sleep (backoff attempt)] else []

/-- The sample world with a model that never answers. -/
def silentModel : World := { sampleWorld with generateContent := fun _ _ => .failure "timeout" }

/-- The sample world with a user who asks for the editor and then types `n`, and
an editor that leaves the text `fix: edited`. -/
def editThenNo : World :=
  { sampleWorld with
    stdinReads := ["e\n", "n\n"]
    readTemp := fun _ _ => .ok "fix: edited\n" }

/-- The sample world with no `API_KEY` in the environment and a config file that
sets no API key, so that the loaded config keeps the empty key. -/
def missingKey : World :=
  { sampleWorld with
    readConfigFile := .data "history_depth: 5\n"
    yamlUnmarshal := fun _ config => .ok config }

/-- The sample world with a model whose answer is white space only. -/
def blankAnswer : World :=
  { sampleWorld with generateContent := fun _ _ => .response [⟨some ⟨[" \n"]⟩⟩] }

/-- The sample world with a model whose first response has a candidate with no
content, and whose later responses carry the sample message. -/
def contentlessAnswer : World :=
  { sampleWorld with
    generateContent := fun i _ =>
      if i = 0 then .response [⟨none⟩] else .response [⟨some ⟨[sampleMessage]⟩⟩] }

/-- The sample world with standard input on a pipe: the lines `maybe` and `yes`
arrive in one read. -/
def pipedInput : World := { sampleWorld with stdinReads := ["maybe\nyes\n"] }

/-! ## Facts about strings -/

theorem len_eq_zero_iff (s : String) : len s = 0 ↔ s = "" := by
  cases s with
  | mk l =>
    cases l with
    | nil => simp [len, String.utf8ByteSize, String.utf8ByteSize.go]
    | cons c cs =>
      have := c.utf8Size_pos
      simp [len, String.utf8ByteSize, String.utf8ByteSize.go]
      constructor
      · omega
      · intro h; exact absurd h (by simp [String.ext_iff])

theorem prefixRegexMatch_iff (s : String) :
    prefixRegexMatch s = true ↔
      s ≠ "" ∧ ∀ c ∈ s.data, 'a'.toNat ≤ c.toNat ∧ c.toNat ≤ 'z'.toNat := by
  cases s with
  | mk l =>
    cases l <;> simp [prefixRegexMatch, isLowerLetter, String.ext_iff]

theorem validateTemplates_ok_iff (ts : List Template) :
    validateTemplates ts = .ok () ↔ ∀ t ∈ ts, TemplateOk t := by
  induction ts with
  | nil => simp [validateTemplates]
  | cons t ts ih =>
    simp only [validateTemplates, List.forall_mem_cons]
    by_cases h1 : t.Prefix = "" ∨ len t.Prefix > 10 ∨ ¬ prefixRegexMatch t.Prefix = true
    · rw [if_pos h1]
      constructor
      · intro h; cases h
      · rintro ⟨⟨hne, hall, hlen, -, -⟩, -⟩
        rcases h1 with h | h | h
        · exact absurd h hne
        · omega
        · exact absurd ((prefixRegexMatch_iff _).2 ⟨hne, hall⟩) h
    · rw [if_neg h1]
      push_neg at h1
      obtain ⟨hne, hlen, hre⟩ := h1
      by_cases h2 : t.Description = "" ∨ len t.Description > 50
      · rw [if_pos h2]
        constructor
        · intro h; cases h
        · rintro ⟨⟨-, -, -, hd, hdl⟩, -⟩
          rcases h2 with h | h
          · exact absurd h hd
          · omega
      · rw [if_neg h2]
        push_neg at h2
        rw [ih]
        constructor
        · intro h
          exact ⟨⟨hne, ((prefixRegexMatch_iff _).1 hre).2, hlen, h2.1, h2.2⟩, h⟩
        · exact fun h => h.2

/-- C1: `Validate` succeeds exactly when the API key is non-empty, `max_diff_size`
and `history_depth` are positive and every template has a non-empty prefix of
letters a-z of at most 10 bytes and a non-empty description of at most 50 bytes.
So it fails when a limit is non-positive or some template is out of bounds, and
succeeds on an otherwise valid config with no templates. -/
theorem Validate_ok_iff (config : Config) :
    (Validate config = .ok () ↔
      config.ApiKey ≠ "" ∧ 0 < config.MaxDiffSize ∧ 0 < config.HistoryDepth ∧
      ∀ t ∈ config.Templates,
        t.Prefix ≠ "" ∧
        (∀ c ∈ t.Prefix.data, 'a'.toNat ≤ c.toNat ∧ c.toNat ≤ 'z'.toNat) ∧
        len t.Prefix ≤ 10 ∧ t.Description ≠ "" ∧ len t.Description ≤ 50) ∧
    ((config.MaxDiffSize ≤ 0 ∨ config.HistoryDepth ≤ 0) →
      ∃ err, Validate config = .error err) ∧
    ((∃ t ∈ config.Templates,
        ¬ (t.Prefix ≠ "" ∧ ∀ c ∈ t.Prefix.data, 'a'.toNat ≤ c.toNat ∧ c.toNat ≤ 'z'.toNat) ∨
        10 < len t.Prefix ∨ 50 < len t.Description) →
      ∃ err, Validate config = .error err) ∧
    (config.ApiKey ≠ "" → 0 < config.MaxDiffSize → 0 < config.HistoryDepth →
      config.Templates = [] → Validate config = .ok ()) := by
  have key : Validate config = .ok () ↔
      config.ApiKey ≠ "" ∧ 0 < config.MaxDiffSize ∧ 0 < config.HistoryDepth ∧
      ∀ t ∈ config.Templates, TemplateOk t := by
    unfold Validate
    by_cases h1 : config.ApiKey = ""
    · simp [h1]
    · by_cases h2 : config.MaxDiffSize ≤ 0
      · simp [h1, h2]
      · by_cases h3 : config.HistoryDepth ≤ 0
        · simp [h1, h2, h3]
        · rw [if_neg h1, if_neg h2, if_neg h3, validateTemplates_ok_iff]
          push_neg at h2 h3
          simp [h1, h2, h3]
  have fails : ∀ {c : Config}, ¬ Validate c = .ok () → ∃ err, Validate c = .error err := by
    intro c h
    cases hv : Validate c with
    | error e => exact ⟨e, rfl⟩
    | ok u => exact absurd hv h
  refine ⟨key, ?_, ?_, ?_⟩
  · intro h
    apply fails
    rw [key]
    rintro ⟨-, h2, h3, -⟩
    omega
  · rintro ⟨t, ht, hbad⟩
    apply fails
    rw [key]
    rintro ⟨-, -, -, hall⟩
    obtain ⟨hne, hl, hlen, -, hdl⟩ := hall t ht
    rcases hbad with h | h | h
    · exact h ⟨hne, hl⟩
    · omega
    · omega
  · intro h1 h2 h3 h4
    rw [key]
    exact ⟨h1, h2, h3, by simp [h4]⟩

/-! ## Staged diff -/

theorem getGitDiff_staged (w : World) (maxBytes : Int) (names : String)
    (hrepo : w.gitRevParse = none) (hnames : w.gitDiffNames = .ok names)
    (hstaged : trimSpace names ≠ "") :
    getGitDiff w maxBytes =
      match w.gitDiffCached with
      | .error err => .error ("failed to get diff: " ++ err)
      | .ok output =>
        if (len output : Int) > maxBytes then
          .error ("diff size exceeds maximum allowed size of " ++ toString maxBytes ++ " bytes")
        else .ok output := by
  have h0 : ¬ len (trimSpace names) = 0 := fun h => hstaged ((len_eq_zero_iff _).1 h)
  simp only [getGitDiff, hrepo, hnames, if_neg h0]

/-- C2: in a repository with a non-empty staged-file list whose diff command
prints `d`, `getGitDiff maxBytes` fails with the size-exceeded error when `d` has
more than `maxBytes` bytes and returns `d` itself otherwise, also when `d` has
exactly `maxBytes` bytes. -/
theorem getGitDiff_size_limit (w : World) (maxBytes : Int) (names d : String)
    (hrepo : w.gitRevParse = none) (hnames : w.gitDiffNames = .ok names)
    (hstaged : trimSpace names ≠ "") (hdiff : w.gitDiffCached = .ok d) :
    ((len d : Int) > maxBytes →
      getGitDiff w maxBytes =
        .error ("diff size exceeds maximum allowed size of " ++ toString maxBytes ++ " bytes")) ∧
    ((len d : Int) ≤ maxBytes → getGitDiff w maxBytes = .ok d) ∧
    ((len d : Int) = maxBytes → getGitDiff w maxBytes = .ok d) := by
  rw [getGitDiff_staged w maxBytes names hrepo hnames hstaged, hdiff]
  refine ⟨fun h => ?_, fun h => ?_, fun h => ?_⟩
  · simp only [if_pos h]
  · simp only [if_neg (not_lt.2 h)]
  · simp only [if_neg (not_lt.2 (le_of_eq h))]

/-- The 50-byte sample diff is rejected under a limit of 49 bytes and returned
unchanged under limits of 50 and of 10000 bytes. -/
theorem getGitDiff_size_limit_witness :
    len sampleDiff = 50 ∧
    getGitDiff sampleWorld 49 =
      .error ("diff size exceeds maximum allowed size of " ++ toString (49 : Int) ++ " bytes") ∧
    getGitDiff sampleWorld 10000 = .ok sampleDiff ∧
    getGitDiff sampleWorld 50 = .ok sampleDiff :=
  ⟨by decide,
   (getGitDiff_size_limit sampleWorld 49 "x\n" sampleDiff rfl rfl (by decide) rfl).1 (by decide),
   (getGitDiff_size_limit sampleWorld 10000 "x\n" sampleDiff rfl rfl (by decide) rfl).2.1
     (by decide),
   (getGitDiff_size_limit sampleWorld 50 "x\n" sampleDiff rfl rfl (by decide) rfl).2.2
     (by decide)⟩

/-! ## No staged changes -/

theorem Load_events_stdout (w : World) (manager : ConfigManager) :
    ∀ e ∈ (Load w manager).2.2, ∃ text, e = .stdout text := by
  unfold Load
  cases h1 : w.readConfigFile with
  | notExist err =>
    simp only [SaveDefault]
    cases h2 : w.yamlMarshal manager.config with
    | error e => simp
    | ok data => cases h3 : w.writeConfigFile manager.path data <;> simp [h3]
  | failed err => simp
  | data bytes =>
    cases h2 : w.yamlUnmarshal bytes manager.config with
    | error e => simp [h2]
    | ok config => cases h3 : Validate config <;> simp [h2, h3]

theorem filter_stdout_nil (p : Event → Bool) (hp : ∀ text, p (.stdout text) = false)
    (events : List Event) (h : ∀ e ∈ events, ∃ text, e = .stdout text) :
    events.filter p = [] := by
  rw [List.filter_eq_nil_iff]
  intro e he
  obtain ⟨text, rfl⟩ := h e he
  simp [hp text]

/-- C3: in a repository whose staged-file list is blank after trimming,
`getGitDiff` fails with "no staged changes" for every limit and every diff
content, and after a successful load of the config `run` returns that same
error with no generator event and no commit event among its effects. -/
theorem run_no_staged_changes (w : World) (maxBytes : Int) (names : String)
    (manager configManager : ConfigManager) (events : List Event)
    (hrepo : w.gitRevParse = none) (hnames : w.gitDiffNames = .ok names)
    (hblank : trimSpace names = "")
    (hmanager : NewConfigManager w = .ok manager)
    (hload : Load w manager = (none, configManager, events)) :
    getGitDiff w maxBytes = .error "no staged changes" ∧
    (run w).1 = .returned (some "no staged changes") ∧
    (run w).2.filter Event.isGenerator = [] ∧
    (run w).2.filter Event.isCommit = [] := by
  have hdiff : ∀ limit, getGitDiff w limit = .error "no staged changes" := by
    intro limit
    have h0 : len (trimSpace names) = 0 := (len_eq_zero_iff _).2 hblank
    simp only [getGitDiff, hrepo, hnames, if_pos h0]
  have hrun : run w = (.returned (some "no staged changes"), events) := by
    simp only [run, hmanager, hload, hdiff]
  have hev : ∀ e ∈ events, ∃ text, e = .stdout text := by
    have := Load_events_stdout w manager
    rw [hload] at this
    exact this
  refine ⟨hdiff maxBytes, ?_, ?_, ?_⟩
  · rw [hrun]
  · rw [hrun]; exact filter_stdout_nil _ (fun _ => rfl) _ hev
  · rw [hrun]; exact filter_stdout_nil _ (fun _ => rfl) _ hev

/-- With nothing staged the sample run stops at "no staged changes" and has no
effect at all. -/
theorem run_no_staged_changes_witness :
    getGitDiff nothingStaged 10000 = .error "no staged changes" ∧
    (run nothingStaged).1 = .returned (some "no staged changes") ∧
    (run nothingStaged).2.filter Event.isGenerator = [] ∧
    (run nothingStaged).2.filter Event.isCommit = [] :=
  run_no_staged_changes nothingStaged 10000 "\n"
    sampleManager
    ⟨sampleConfig, "/home/u/.ai-commit/config.yaml"⟩ [] rfl rfl (by decide) rfl rfl

/-! ## The retry loop -/

theorem generateLoop_step_failed (w : World) (prompt : String)
    (maxRetries remaining attempt : Nat) (lastErr : Option String)
    (h : (w.generateContent attempt prompt).failed = true) :
    ∃ err, generateLoop w prompt maxRetries (remaining + 1) attempt lastErr =
      ((generateLoop w prompt maxRetries remaining (attempt + 1) (some err)).1,
        waitBefore attempt ++ .generateContent prompt ::
          (generateLoop w prompt maxRetries remaining (attempt + 1) (some err)).2) := by
  cases hg : w.generateContent attempt prompt with
  | failure err => exact ⟨err, by simp only [generateLoop, hg, waitBefore]⟩
  | response candidates =>
    refine ⟨"empty response received", ?_⟩
    rw [hg] at h
    cases hf : firstPart candidates with
    | absent => simp only [generateLoop, hg, hf, waitBefore]
    | nilContent => simp [GenOutcome.failed, hf] at h
    | part message =>
      have hm : message = "" := by simpa [GenOutcome.failed, hf] using h
      simp only [generateLoop, hg, hf, waitBefore, hm, ne_eq, not_true_eq_false, if_false]

theorem generateLoop_step_text (w : World) (prompt : String) (maxRetries remaining attempt : Nat)
    (lastErr : Option String) (message : String)
    (h : (w.generateContent attempt prompt).text = some message) :
    generateLoop w prompt maxRetries (remaining + 1) attempt lastErr =
      (.returned (.ok (trimSpace message)), waitBefore attempt ++ [.generateContent prompt]) := by
  cases hg : w.generateContent attempt prompt with
  | failure err => rw [hg] at h; simp [GenOutcome.text] at h
  | response candidates =>
    rw [hg] at h
    cases hf : firstPart candidates with
    | absent => simp [GenOutcome.text, hf] at h
    | nilContent => simp [GenOutcome.text, hf] at h
    | part first =>
      by_cases hne : first = ""
      · simp [GenOutcome.text, hf, hne] at h
      · simp only [GenOutcome.text, hf, ne_eq, hne, not_false_eq_true, if_true,
          Option.some.injEq] at h
        subst h
        simp only [generateLoop, hg, hf, waitBefore, ne_eq, hne, not_false_eq_true, if_true]

theorem generateLoop_step_contentless (w : World) (prompt : String)
    (maxRetries remaining attempt : Nat) (lastErr : Option String)
    (h : (w.generateContent attempt prompt).contentless = true) :
    generateLoop w prompt maxRetries (remaining + 1) attempt lastErr =
      (.panicked nilDereference, waitBefore attempt ++ [.generateContent prompt]) := by
  cases hg : w.generateContent attempt prompt with
  | failure err => rw [hg] at h; simp [GenOutcome.contentless] at h
  | response candidates =>
    rw [hg] at h
    cases hf : firstPart candidates with
    | absent => simp [GenOutcome.contentless, hf] at h
    | part first => simp [GenOutcome.contentless, hf] at h
    | nilContent => simp only [generateLoop, hg, hf, waitBefore]

/-- Every outcome is a failure or empty response, a non-empty text, or a response
without content. -/
theorem GenOutcome.cases (o : GenOutcome) :
    o.failed = true ∨ (∃ message, o.text = some message) ∨ o.contentless = true := by
  cases o with
  | failure err => exact Or.inl rfl
  | response candidates =>
    cases hf : firstPart candidates with
    | absent => exact Or.inl (by simp [GenOutcome.failed, hf])
    | nilContent => exact Or.inr (Or.inr (by simp [GenOutcome.contentless, hf]))
    | part first =>
      by_cases hne : first = ""
      · exact Or.inl (by simp [GenOutcome.failed, hf, hne])
      · exact Or.inr (Or.inl ⟨first, by simp [GenOutcome.text, hf, hne]⟩)

theorem calls_wait_cons (attempt : Nat) (prompt : String) (events : List Event) :
    calls (waitBefore attempt ++ .generateContent prompt :: events) = calls events + 1 := by
  unfold calls waitBefore
  split <;> simp [List.filter_cons, Event.isGenerateContent]

theorem calls_wait_one (attempt : Nat) (prompt : String) :
    calls (waitBefore attempt ++ [.generateContent prompt]) = 1 := by
  have := calls_wait_cons attempt prompt []
  simpa [calls] using this

theorem generateLoop_first_text (w : World) (prompt : String) (maxRetries : Nat)
    (message : String) :
    ∀ (k remaining attempt : Nat) (lastErr : Option String), k < remaining →
      (w.generateContent (attempt + k) prompt).text = some message →
      (∀ j < k, (w.generateContent (attempt + j) prompt).failed = true) →
      (generateLoop w prompt maxRetries remaining attempt lastErr).1 =
        .returned (.ok (trimSpace message)) ∧
      calls (generateLoop w prompt maxRetries remaining attempt lastErr).2 = k + 1 := by
  intro k
  induction k with
  | zero =>
    intro remaining attempt lastErr hk ht _
    obtain ⟨n, rfl⟩ : ∃ n, remaining = n + 1 := ⟨remaining - 1, by omega⟩
    rw [generateLoop_step_text w prompt maxRetries n attempt lastErr message (by simpa using ht)]
    exact ⟨rfl, calls_wait_one attempt prompt⟩
  | succ k ih =>
    intro remaining attempt lastErr hk ht hfail
    obtain ⟨n, rfl⟩ : ∃ n, remaining = n + 1 := ⟨remaining - 1, by omega⟩
    obtain ⟨err, hstep⟩ := generateLoop_step_failed w prompt maxRetries n attempt lastErr
      (by simpa using hfail 0 (Nat.succ_pos k))
    have hrec := ih n (attempt + 1) (some err) (by omega)
      (by rw [show attempt + 1 + k = attempt + (k + 1) by omega]; exact ht)
      (fun j hj => by
        rw [show attempt + 1 + j = attempt + (j + 1) by omega]
        exact hfail (j + 1) (by omega))
    rw [hstep]
    exact ⟨hrec.1, by rw [calls_wait_cons, hrec.2]⟩

theorem generateLoop_first_contentless (w : World) (prompt : String) (maxRetries : Nat) :
    ∀ (k remaining attempt : Nat) (lastErr : Option String), k < remaining →
      (w.generateContent (attempt + k) prompt).contentless = true →
      (∀ j < k, (w.generateContent (attempt + j) prompt).failed = true) →
      (generateLoop w prompt maxRetries remaining attempt lastErr).1 =
        .panicked nilDereference ∧
      calls (generateLoop w prompt maxRetries remaining attempt lastErr).2 = k + 1 := by
  intro k
  induction k with
  | zero =>
    intro remaining attempt lastErr hk hc _
    obtain ⟨n, rfl⟩ : ∃ n, remaining = n + 1 := ⟨remaining - 1, by omega⟩
    rw [generateLoop_step_contentless w prompt maxRetries n attempt lastErr (by simpa using hc)]
    exact ⟨rfl, calls_wait_one attempt prompt⟩
  | succ k ih =>
    intro remaining attempt lastErr hk hc hfail
    obtain ⟨n, rfl⟩ : ∃ n, remaining = n + 1 := ⟨remaining - 1, by omega⟩
    obtain ⟨err, hstep⟩ := generateLoop_step_failed w prompt maxRetries n attempt lastErr
      (by simpa using hfail 0 (Nat.succ_pos k))
    have hrec := ih n (attempt + 1) (some err) (by omega)
      (by rw [show attempt + 1 + k = attempt + (k + 1) by omega]; exact hc)
      (fun j hj => by
        rw [show attempt + 1 + j = attempt + (j + 1) by omega]
        exact hfail (j + 1) (by omega))
    rw [hstep]
    exact ⟨hrec.1, by rw [calls_wait_cons, hrec.2]⟩

theorem generateLoop_all_failed (w : World) (prompt : String) (maxRetries : Nat) :
    ∀ (remaining attempt : Nat) (lastErr : Option String),
      (∀ j < remaining, (w.generateContent (attempt + j) prompt).failed = true) →
      (∃ err, (generateLoop w prompt maxRetries remaining attempt lastErr).1 =
        .returned (.error err)) ∧
      calls (generateLoop w prompt maxRetries remaining attempt lastErr).2 = remaining := by
  intro remaining
  induction remaining with
  | zero =>
    intro attempt lastErr _
    exact ⟨⟨_, rfl⟩, rfl⟩
  | succ n ih =>
    intro attempt lastErr hfail
    obtain ⟨err, hstep⟩ := generateLoop_step_failed w prompt maxRetries n attempt lastErr
      (by simpa using hfail 0 (Nat.succ_pos n))
    have hrec := ih (attempt + 1) (some err) (fun j hj => by
      rw [show attempt + 1 + j = attempt + (j + 1) by omega]
      exact hfail (j + 1) (by omega))
    rw [hstep]
    exact ⟨hrec.1, by rw [calls_wait_cons, hrec.2]⟩

theorem generateLoop_calls_le (w : World) (prompt : String) (maxRetries : Nat) :
    ∀ (remaining attempt : Nat) (lastErr : Option String),
      calls (generateLoop w prompt maxRetries remaining attempt lastErr).2 ≤ remaining := by
  intro remaining
  induction remaining with
  | zero => intro attempt lastErr; exact Nat.le_refl 0
  | succ n ih =>
    intro attempt lastErr
    rcases GenOutcome.cases (w.generateContent attempt prompt) with h | ⟨message, h⟩ | h
    · obtain ⟨err, hstep⟩ := generateLoop_step_failed w prompt maxRetries n attempt lastErr h
      rw [hstep, calls_wait_cons]
      exact Nat.succ_le_succ (ih (attempt + 1) (some err))
    · rw [generateLoop_step_text w prompt maxRetries n attempt lastErr message h,
        calls_wait_one]
      omega
    · rw [generateLoop_step_contentless w prompt maxRetries n attempt lastErr h, calls_wait_one]
      omega

/-- What `Generate` does for every behaviour of the remote call: at most 4
calls; at the first call that is no failure and no empty response it stops, with
the trimmed text when that call yields a non-empty text, with a panic when its
first candidate has no content; after 4 failures or empty responses it returns
an error. -/
theorem Generate_outcomes (w : World) (config : Config) (diff : String)
    (history : List String) :
    calls (Generate w config diff history).2 ≤ 4 ∧
    (∀ (i : Nat) (message : String), i < 4 →
      (w.generateContent i (buildPrompt config diff history)).text = some message →
      (∀ j < i, (w.generateContent j (buildPrompt config diff history)).failed = true) →
      calls (Generate w config diff history).2 = i + 1 ∧
      (Generate w config diff history).1 = .returned (.ok (trimSpace message))) ∧
    (∀ (i : Nat), i < 4 →
      (w.generateContent i (buildPrompt config diff history)).contentless = true →
      (∀ j < i, (w.generateContent j (buildPrompt config diff history)).failed = true) →
      calls (Generate w config diff history).2 = i + 1 ∧
      (Generate w config diff history).1 = .panicked nilDereference) ∧
    ((∀ i < 4, (w.generateContent i (buildPrompt config diff history)).failed = true) →
      calls (Generate w config diff history).2 = 4 ∧
      ∃ err, (Generate w config diff history).1 = .returned (.error err)) := by
  refine ⟨generateLoop_calls_le w _ 3 4 0 none, ?_, ?_, ?_⟩
  · intro i message hi ht hfail
    have := generateLoop_first_text w (buildPrompt config diff history) 3 message i 4 0 none hi
      (by simpa using ht) (fun j hj => by simpa using hfail j hj)
    exact ⟨this.2, this.1⟩
  · intro i hi hc hfail
    have := generateLoop_first_contentless w (buildPrompt config diff history) 3 i 4 0 none hi
      (by simpa using hc) (fun j hj => by simpa using hfail j hj)
    exact ⟨this.2, this.1⟩
  · intro hfail
    have := generateLoop_all_failed w (buildPrompt config diff history) 3 4 0 none
      (fun j hj => by simpa using hfail j hj)
    exact ⟨this.2, this.1⟩

/-- C4 at a failing input: the first response has a candidate without content
and the second call would yield the sample message; `Generate` panics on the nil
content after one call, so it neither returns the text of the second call nor
makes 4 calls and returns an error, and `run` ends in the same panic with
nothing committed. -/
theorem Generate_contentless_answer :
    (contentlessAnswer.generateContent 1
      (buildPrompt sampleConfig sampleDiff ["fix: typo", "feat: add login"])).text =
      some sampleMessage ∧
    Generate contentlessAnswer sampleConfig sampleDiff ["fix: typo", "feat: add login"] =
      (.panicked "runtime error: invalid memory address or nil pointer dereference",
        [.generateContent
          (buildPrompt sampleConfig sampleDiff ["fix: typo", "feat: add login"])]) ∧
    calls (Generate contentlessAnswer sampleConfig sampleDiff
      ["fix: typo", "feat: add login"]).2 = 1 ∧
    (run contentlessAnswer).1 =
      .panicked "runtime error: invalid memory address or nil pointer dereference" ∧
    (run contentlessAnswer).2.filter Event.isCommit = [] := by
  refine ⟨by decide, rfl, by decide, by decide, by decide⟩

/-! ## Backoff -/

/-- C5, as stated, fails: when every attempt fails the loop sleeps three times,
for 2, 4 and 8 seconds, and never for 16 seconds. -/
theorem backoff_waits_counterexample :
    (∀ i < 4, (silentModel.generateContent i
      (buildPrompt sampleConfig sampleDiff [])).failed = true) ∧
    sleeps (Generate silentModel sampleConfig sampleDiff []).2 =
      [2 * Second, 4 * Second, 8 * Second] ∧
    sleeps (Generate silentModel sampleConfig sampleDiff []).2 ≠
      [2 * Second, 4 * Second, 8 * Second, 16 * Second] := by
  refine ⟨fun i _ => rfl, by decide, by decide⟩

/-- C5, amended: when each of the 4 attempts fails or returns empty content (a
transport error, no candidate, no part, or an empty first part), `Generate`
calls the remote model 4 times and sleeps before the second, third and fourth
call only, for 2, 4 and 8 seconds in this order; there is no wait before the
first call. -/
theorem backoff_waits (w : World) (config : Config) (diff : String) (history : List String)
    (hfail : ∀ i < 4,
      (w.generateContent i (buildPrompt config diff history)).failed = true) :
    (Generate w config diff history).2 =
      [.generateContent (buildPrompt config diff history),
       .sleep (2 * Second), .generateContent (buildPrompt config diff history),
       .sleep (4 * Second), .generateContent (buildPrompt config diff history),
       .sleep (8 * Second), .generateContent (buildPrompt config diff history)] ∧
    sleeps (Generate w config diff history).2 = [2 * Second, 4 * Second, 8 * Second] := by
  obtain ⟨e0, h0⟩ := generateLoop_step_failed w (buildPrompt config diff history) 3 3 0 none
    (hfail 0 (by omega))
  obtain ⟨e1, h1⟩ := generateLoop_step_failed w (buildPrompt config diff history) 3 2 1 (some e0)
    (hfail 1 (by omega))
  obtain ⟨e2, h2⟩ := generateLoop_step_failed w (buildPrompt config diff history) 3 1 2 (some e1)
    (hfail 2 (by omega))
  obtain ⟨e3, h3⟩ := generateLoop_step_failed w (buildPrompt config diff history) 3 0 3 (some e2)
    (hfail 3 (by omega))
  have hev : (Generate w config diff history).2 =
      [.generateContent (buildPrompt config diff history),
       .sleep (2 * Second), .generateContent (buildPrompt config diff history),
       .sleep (4 * Second), .generateContent (buildPrompt config diff history),
       .sleep (8 * Second), .generateContent (buildPrompt config diff history)] := by
    unfold Generate
    simp only [Nat.reduceAdd]
    rw [h0, h1, h2, h3]
    simp [generateLoop, waitBefore, backoff, Second]
  exact ⟨hev, by rw [hev]; rfl⟩

/-- The model that never answers is called four times with waits of 2, 4 and 8
seconds between the calls. -/
theorem backoff_waits_witness :
    sleeps (Generate silentModel sampleConfig sampleDiff
      ["fix: typo", "feat: add login"]).2 = [2 * Second, 4 * Second, 8 * Second] :=
  (backoff_waits silentModel sampleConfig sampleDiff ["fix: typo", "feat: add login"]
    (fun _ _ => rfl)).2

/-! ## The prompt loop -/

theorem awaitChoice_eq (w : World) (config : Config) (message : String) :
    ∀ (stdin : List String) (pending : List Char),
      awaitChoice w config message pending stdin =
        match ReadString pending stdin with
        | (.error _, _) => (.error "EOF", [])
        | (.ok line, rest) =>
          if normalize w line = "" ∨ normalize w line = "y" ∨ normalize w line = "yes" then
            (.ok message, [.readLine line])
          else if normalize w line = "e" ∨ normalize w line = "edit" then
            ((editMessage w message).1, .readLine line :: (editMessage w message).2)
          else if normalize w line = "n" ∨ normalize w line = "no" then
            (.ok "", [.readLine line])
          else
            ((awaitChoice w config message [] rest).1,
              .readLine line :: invalidNotice config :: presentation config message ++
                (awaitChoice w config message [] rest).2) := by
  intro stdin
  induction stdin with
  | nil => intro pending; rfl
  | cons chunk rest ih =>
    intro pending
    cases h : upToNewline chunk.data with
    | none => simp only [awaitChoice, ReadString, h, ih]
    | some head => simp only [awaitChoice, ReadString, h]

theorem getCommitAction_eof (w : World) (config : Config) (message : String)
    (stdin : List String) (err : String) (rest : List String)
    (h : ReadString [] stdin = (.error err, rest)) :
    getCommitAction w config message stdin = (.error "EOF", presentation config message) := by
  simp only [getCommitAction, awaitChoice_eq w config message stdin [], h, List.append_nil]

theorem getCommitAction_accept (w : World) (config : Config) (message : String)
    (stdin : List String) (line : String) (rest : List String)
    (h : ReadString [] stdin = (.ok line, rest))
    (hline : normalize w line = "" ∨ normalize w line = "y" ∨ normalize w line = "yes") :
    getCommitAction w config message stdin =
      (.ok message, presentation config message ++ [.readLine line]) := by
  simp only [getCommitAction, awaitChoice_eq w config message stdin [], h, if_pos hline]

theorem getCommitAction_cancel (w : World) (config : Config) (message : String)
    (stdin : List String) (line : String) (rest : List String)
    (h : ReadString [] stdin = (.ok line, rest))
    (hline : normalize w line = "n" ∨ normalize w line = "no") :
    getCommitAction w config message stdin =
      (.ok "", presentation config message ++ [.readLine line]) := by
  have h1 : ¬ (normalize w line = "" ∨ normalize w line = "y" ∨ normalize w line = "yes") := by
    rcases hline with h | h <;> rw [h] <;> decide
  have h2 : ¬ (normalize w line = "e" ∨ normalize w line = "edit") := by
    rcases hline with h | h <;> rw [h] <;> decide
  simp only [getCommitAction, awaitChoice_eq w config message stdin [], h, if_neg h1, if_neg h2,
    if_pos hline]

theorem getCommitAction_skip (w : World) (config : Config) (message : String)
    (stdin : List String) (line : String) (rest : List String)
    (h : ReadString [] stdin = (.ok line, rest)) (hline : normalize w line ∉ choices) :
    getCommitAction w config message stdin =
      ((getCommitAction w config message rest).1,
        presentation config message ++ .readLine line :: invalidNotice config ::
          (getCommitAction w config message rest).2) := by
  simp only [choices, List.mem_cons, List.mem_singleton, List.not_mem_nil, or_false,
    not_or] at hline
  obtain ⟨h1, h2, h3, h4, h5, h6, h7⟩ := hline
  simp only [getCommitAction, awaitChoice_eq w config message stdin [], h, h1, h2, h3, h4, h5,
    h6, h7, or_self, if_false, List.cons_append]

theorem ReadString_line (line : String) (rest : List String)
    (h : upToNewline line.data = some line.data) :
    ReadString [] (line :: rest) = (.ok line, rest) := by
  simp only [ReadString, h, List.nil_append]

/-- When every line comes in a read of its own, as on a terminal: lines that are
no recognised choice are skipped, each after the prompt for the unchanged
message and with the invalid-choice notice; the first other line returns the
message when it reads "", "y" or "yes", and the empty string when it reads "n"
or "no".  The printed texts are spelled out in `shown` and in the notice. -/
theorem getCommitAction_line_reads (w : World) (config : Config) (message : String)
    (skipped : List String) (line : String) (rest : List String) (shown : List Event)
    (hshown : shown =
      [.stdout ("\n" ++ colorize "=== Generated Commit Message ===" colorBlue config ++ "\n"),
       .stdout (colorize message colorGreen config ++ "\n\n"),
       .stdout (colorize "What would you like to do?" colorCyan config ++ "\n"),
       .stdout (colorize "[Y]es: " colorGreen config ++ "Commit with this message" ++ "\n"),
       .stdout (colorize "[E]dit: " colorYellow config ++ "Edit the message" ++ "\n"),
       .stdout (colorize "[N]o: " colorRed config ++ "Cancel commit" ++ "\n"),
       .stdout (colorize "Choice [Y/e/n]: " colorCyan config)])
    (hlines : ∀ l ∈ skipped, upToNewline l.data = some l.data)
    (hline : upToNewline line.data = some line.data)
    (hskip : ∀ l ∈ skipped, normalize w l ∉ choices) :
    (normalize w line ∈ ["", "y", "yes"] →
      getCommitAction w config message (skipped ++ line :: rest) =
        (.ok message,
          skipped.flatMap (fun l => shown ++
            [.readLine l,
             .stdout (colorize "Invalid choice. Please try again." colorRed config ++ "\n")]) ++
          shown ++ [.readLine line])) ∧
    (normalize w line ∈ ["n", "no"] →
      getCommitAction w config message (skipped ++ line :: rest) =
        (.ok "",
          skipped.flatMap (fun l => shown ++
            [.readLine l,
             .stdout (colorize "Invalid choice. Please try again." colorRed config ++ "\n")]) ++
          shown ++ [.readLine line])) := by
  have hpres : presentation config message = shown := by rw [hshown]; rfl
  induction skipped with
  | nil =>
    simp only [List.nil_append, List.flatMap_nil]
    constructor
    · intro h
      rw [getCommitAction_accept w config message _ line rest (ReadString_line line rest hline)
        (by simpa using h), hpres]
    · intro h
      rw [getCommitAction_cancel w config message _ line rest (ReadString_line line rest hline)
        (by simpa using h), hpres]
  | cons l ls ih =>
    have ih := ih (fun x hx => hlines x (List.mem_cons_of_mem _ hx))
      (fun x hx => hskip x (List.mem_cons_of_mem _ hx))
    have hstep := getCommitAction_skip w config message (l :: (ls ++ line :: rest)) l
      (ls ++ line :: rest)
      (ReadString_line l _ (hlines l (List.mem_cons_self _ _)))
      (hskip l (List.mem_cons_self _ _))
    constructor
    · intro h
      rw [List.cons_append, hstep, ih.1 h, hpres]
      simp [invalidNotice]
    · intro h
      rw [List.cons_append, hstep, ih.2 h, hpres]
      simp [invalidNotice]

/-- C6 at a failing input: the lines `maybe` and `yes` reach standard input
together, as from a pipe.  The reader of the first pass takes both and returns
`maybe`, which is skipped with the notice and a second prompt for the unchanged
message; the reader of the second pass is new and finds standard input at its
end, so `getCommitAction` returns the error `EOF` where the line `yes` should
accept the message, and `run` fails without a commit.  With the same two lines
in separate reads the message is accepted. -/
theorem getCommitAction_piped_lines :
    ReadString [] ["maybe\nyes\n"] = (.ok "maybe\n", []) ∧
    getCommitAction pipedInput sampleConfig sampleMessage ["maybe\nyes\n"] =
      (.error "EOF",
       [.stdout "\n=== Generated Commit Message ===\n",
        .stdout "feat: add logout\n\nAdds a logout endpoint.\n\n",
        .stdout "What would you like to do?\n",
        .stdout "[Y]es: Commit with this message\n",
        .stdout "[E]dit: Edit the message\n",
        .stdout "[N]o: Cancel commit\n",
        .stdout "Choice [Y/e/n]: ",
        .readLine "maybe\n",
        .stdout "Invalid choice. Please try again.\n",
        .stdout "\n=== Generated Commit Message ===\n",
        .stdout "feat: add logout\n\nAdds a logout endpoint.\n\n",
        .stdout "What would you like to do?\n",
        .stdout "[Y]es: Commit with this message\n",
        .stdout "[E]dit: Edit the message\n",
        .stdout "[N]o: Cancel commit\n",
        .stdout "Choice [Y/e/n]: "]) ∧
    (run pipedInput).1 = .returned (some "failed to process commit action: EOF") ∧
    (run pipedInput).2.filter Event.isCommit = [] ∧
    (getCommitAction pipedInput sampleConfig sampleMessage ["maybe\n", "yes\n"]).1 =
      .ok sampleMessage := by
  refine ⟨by decide, by decide, by decide, by decide, by decide⟩

/-! ## The edit path -/

theorem editMessage_ok (w : World) (message name content : String)
    (htemp : w.createTemp = .ok name) (hwrite : w.writeTemp message = none)
    (heditor : resolveEditor w ≠ "")
    (hrun : w.runEditor (resolveEditor w) name message = none)
    (hread : w.readTemp (resolveEditor w) message = .ok content)
    (hcontent : trimSpace content ≠ "") :
    editMessage w message = (.ok (trimSpace content), [.editor (resolveEditor w) name]) := by
  simp only [editMessage, htemp, hwrite, if_neg heditor, hrun, hread, if_neg hcontent]

/-- C7, as stated, fails: after `e` and an editor that leaves `fix: edited`, a
following `n` is never read; the result is the edited text, not the empty
string, and `run` commits it. -/
theorem getCommitAction_edit_counterexample :
    (getCommitAction editThenNo sampleConfig sampleMessage ["e\n", "n\n"]).1 =
      .ok "fix: edited" ∧
    (getCommitAction editThenNo sampleConfig sampleMessage ["e\n", "n\n"]).1 ≠ .ok "" ∧
    (getCommitAction editThenNo sampleConfig sampleMessage ["e\n", "n\n"]).2.filter
      Event.isReadLine = [.readLine "e\n"] ∧
    (run editThenNo).2.filter Event.isCommit = [.commit "fix: edited"] := by
  refine ⟨by decide, by decide, by decide, by decide⟩

/-- C7, amended: when the line read first is `e` or `edit` and the editor leaves a file
whose trimmed content is non-empty, `getCommitAction` returns that trimmed
content at once, without error: it prints no further prompt and reads no further
line, so the lines that follow have no effect. -/
theorem getCommitAction_edit (w : World) (config : Config) (message : String)
    (stdin : List String) (line : String) (rest : List String) (name content : String)
    (hinput : ReadString [] stdin = (.ok line, rest))
    (hline : normalize w line = "e" ∨ normalize w line = "edit")
    (htemp : w.createTemp = .ok name) (hwrite : w.writeTemp message = none)
    (heditor : resolveEditor w ≠ "")
    (hrun : w.runEditor (resolveEditor w) name message = none)
    (hread : w.readTemp (resolveEditor w) message = .ok content)
    (hcontent : trimSpace content ≠ "") :
    getCommitAction w config message stdin =
      (.ok (trimSpace content),
        presentation config message ++ [.readLine line, .editor (resolveEditor w) name]) := by
  have h1 : ¬ (normalize w line = "" ∨ normalize w line = "y" ∨ normalize w line = "yes") := by
    rcases hline with h | h <;> rw [h] <;> decide
  simp only [getCommitAction, awaitChoice_eq w config message stdin [], hinput, if_neg h1,
    if_pos hline, editMessage_ok w message name content htemp hwrite heditor hrun hread hcontent]

/-- In the sample world with the editor leaving `fix: edited`, the input `Edit`
yields that text whatever follows. -/
theorem getCommitAction_edit_witness :
    getCommitAction editThenNo sampleConfig sampleMessage ["Edit\n", "n\n"] =
      (.ok (trimSpace "fix: edited\n"),
        presentation sampleConfig sampleMessage ++
          [.readLine "Edit\n", .editor (resolveEditor editThenNo) "/tmp/commit-msg-1.txt"]) :=
  getCommitAction_edit editThenNo sampleConfig sampleMessage ["Edit\n", "n\n"] "Edit\n" ["n\n"]
    "/tmp/commit-msg-1.txt" "fix: edited\n" (by decide) (by decide) rfl rfl (by decide) rfl rfl
    (by decide)

/-! ## The whole run -/

theorem dropWhile_head (p : Char → Bool) (l : List Char)
    (h : ∀ c, l.head? = some c → p c = false) : l.dropWhile p = l := by
  cases l with
  | nil => rfl
  | cons c cs =>
    have hc : p c = false := h c rfl
    simp [List.dropWhile_cons, hc]

theorem trimSpace_id (s : String)
    (hfirst : ∀ c, s.data.head? = some c → isSpace c = false)
    (hlast : ∀ c, s.data.getLast? = some c → isSpace c = false) :
    trimSpace s = s := by
  have h1 : s.data.dropWhile isSpace = s.data := dropWhile_head _ _ hfirst
  have h2 : s.data.reverse.dropWhile isSpace = s.data.reverse :=
    dropWhile_head _ _ (fun c hc => hlast c (by rwa [List.head?_reverse] at hc))
  simp only [trimSpace, trimRunes, h1, h2, List.reverse_reverse]

theorem Generate_first_text (w : World) (config : Config) (diff : String)
    (history : List String) (message : String)
    (h : (w.generateContent 0 (buildPrompt config diff history)).text = some message) :
    Generate w config diff history =
      (.returned (.ok (trimSpace message)),
        [.generateContent (buildPrompt config diff history)]) := by
  unfold Generate
  simp only [Nat.reduceAdd]
  rw [generateLoop_step_text w _ 3 3 0 none message h]
  rfl

theorem presentation_no_commit (config : Config) (message : String) :
    (presentation config message).filter Event.isCommit = [] := by
  simp [presentation, Event.isCommit]

/-- C8: with a config that loaded without error, a repository with staged files
whose diff is within the limit, any commit history, a model whose first answer
is a text `m` with no white space at either end and some non-space character,
and a user whose first input line reads `y`, `run` performs exactly one commit,
with the message `m`. -/
theorem run_commits_once (w : World) (manager configManager : ConfigManager)
    (events : List Event) (names d m line : String) (rest : List String)
    (hmanager : NewConfigManager w = .ok manager)
    (hload : Load w manager = (none, configManager, events))
    (hrepo : w.gitRevParse = none) (hnames : w.gitDiffNames = .ok names)
    (hstaged : trimSpace names ≠ "") (hdiff : w.gitDiffCached = .ok d)
    (hsize : (len d : Int) ≤ configManager.config.MaxDiffSize)
    (hclient : w.newClient configManager.config.ApiKey = none)
    (hgen : (w.generateContent 0 (buildPrompt configManager.config d
      (historyOrEmpty w configManager.config.HistoryDepth))).text = some m)
    (hfirst : ∀ c, m.data.head? = some c → isSpace c = false)
    (hlast : ∀ c, m.data.getLast? = some c → isSpace c = false)
    (hsome : ∃ c ∈ m.data, isSpace c = false)
    (hinput : ReadString [] w.stdinReads = (.ok line, rest)) (hy : normalize w line = "y") :
    (run w).2.filter Event.isCommit = [.commit m] := by
  have hne : m ≠ "" := by
    rintro rfl
    obtain ⟨c, hc, -⟩ := hsome
    simp at hc
  have hd : getGitDiff w configManager.config.MaxDiffSize = .ok d := by
    rw [getGitDiff_staged w _ names hrepo hnames hstaged, hdiff]
    simp only [if_neg (not_lt.2 hsize)]
  have hg := Generate_first_text w configManager.config d
    (historyOrEmpty w configManager.config.HistoryDepth) m hgen
  rw [trimSpace_id m hfirst hlast] at hg
  have hcli : getCommitAction w configManager.config m w.stdinReads =
      (.ok m, presentation configManager.config m ++ [.readLine line]) :=
    getCommitAction_accept w configManager.config m _ line rest hinput (Or.inr (Or.inl hy))
  have hev : events.filter Event.isCommit = [] := by
    have := Load_events_stdout w manager
    rw [hload] at this
    exact filter_stdout_nil _ (fun _ => rfl) _ this
  have hpres := presentation_no_commit configManager.config m
  cases hc : w.gitCommit m with
  | error output =>
    simp [run, hmanager, hload, hd, NewCommitMessageGenerator, hclient, hg, hcli, hne,
      commitChanges, hc, hev, hpres, Event.isCommit]
  | ok u =>
    simp [run, hmanager, hload, hd, NewCommitMessageGenerator, hclient, hg, hcli, hne,
      commitChanges, hc, hev, hpres, Event.isCommit]

/-- The scenario of the specification: a 50-byte diff, the history `fix: typo`,
`feat: add login`, the model answering the sample message at once and the user
typing `y` give one commit with exactly that message. -/
theorem run_commits_once_witness :
    len sampleDiff = 50 ∧
    historyOrEmpty sampleWorld 2 = ["fix: typo", "feat: add login"] ∧
    (run sampleWorld).2.filter Event.isCommit =
      [.commit "feat: add logout\n\nAdds a logout endpoint."] :=
  ⟨by decide, by decide,
   run_commits_once sampleWorld
    sampleManager
    ⟨sampleConfig, "/home/u/.ai-commit/config.yaml"⟩ [] "x\n" sampleDiff sampleMessage "y\n" []
    rfl rfl rfl rfl (by decide) rfl (by decide) rfl rfl (by decide) (by decide)
    ⟨'f', by decide, by decide⟩ (by decide) (by decide)⟩

/-! ## Reporting a missing API key -/

theorem run_missing_key (w : World) (manager : ConfigManager) (bytes : String)
    (config : Config) (hmanager : NewConfigManager w = .ok manager)
    (hfile : w.readConfigFile = .data bytes)
    (hyaml : w.yamlUnmarshal bytes manager.config = .ok config)
    (hkey : config.ApiKey = "") :
    (run w).1 = .returned (some ("failed to load config: " ++ errApiKeyRequired)) ∧
    mainReport w =
      [.stdout (colorRed ++ ("Error: " ++ ("failed to load config: " ++ errApiKeyRequired)) ++
        colorReset ++ "\n")] := by
  have hrun : (run w).1 =
      .returned (some ("failed to load config: " ++ errApiKeyRequired)) := by
    simp [run, hmanager, Load, hfile, hyaml, Validate, hkey]
  have h1 : "failed to load config: " ++ errApiKeyRequired ≠ "not a git repository" := by decide
  have h2 : "failed to load config: " ++ errApiKeyRequired ≠ "no staged changes" := by decide
  have h3 : "failed to load config: " ++ errApiKeyRequired ≠
      "API key is required. Set it in config file or API_KEY environment variable" := by decide
  refine ⟨hrun, ?_⟩
  simp only [mainReport, hrun, printError, errorText, if_neg h1, if_neg h2, if_neg h3]
  rfl

/-- C9 at a failing input: with an empty API key in the loaded config, `Validate`
returns the missing-key error, `run` wraps it in "failed to load config: ", and
`main` prints the generic message; the missing-key line and its tip, which
`printError` holds for the unwrapped text, are not printed. -/
theorem mainReport_missing_key :
    NewConfigManager missingKey = .ok sampleManager ∧
    Load missingKey sampleManager = (some errApiKeyRequired, sampleManager, []) ∧
    (run missingKey).1 =
      .returned (some ("failed to load config: API key is required. Set it in config file " ++
        "or API_KEY environment variable")) ∧
    mainReport missingKey =
      [.stdout ("\x1b[31mError: failed to load config: API key is required. Set it in " ++
        "config file or API_KEY environment variable\x1b[0m\n")] ∧
    printError errApiKeyRequired =
      [.stdout ("\x1b[31mError: API key is missing\x1b[0m\n" ++
        "Tip: Run 'ai-commit init' to set up configuration or set API_KEY environment " ++
        "variable\n")] ∧
    mainReport missingKey ≠ printError errApiKeyRequired := by
  refine ⟨rfl, rfl, by decide, by decide, by decide, by decide⟩

/-! ## A blank answer of the model -/

/-- C10 at a failing input: when the first answer of the model is white space
only, `Generate` returns the empty string without error, after one call; with
the user typing `y`, `run` then commits nothing and reports a cancelled commit. -/
theorem Generate_blank_answer :
    Generate blankAnswer sampleConfig sampleDiff ["fix: typo", "feat: add login"] =
      (.returned (.ok ""), [.generateContent
        (buildPrompt sampleConfig sampleDiff ["fix: typo", "feat: add login"])]) ∧
    (run blankAnswer).1 = .returned none ∧
    (run blankAnswer).2.filter Event.isCommit = [] ∧
    Event.stdout "Commit cancelled\n" ∈ (run blankAnswer).2 := by
  refine ⟨rfl, by decide, by decide, by decide⟩

end AiCommit
